import Mathlib

/-!
Verification of the StarryPy message-handling pipeline (Project-Apophis).

The Python source is shallowly embedded: a `BinaryIO` byte stream is the
list of bytes still unread, every parse function returns the parsed value
together with the unread rest of the stream, machine integers are `Nat` /
`Int`, Python exceptions are `Except PyErr`, and the mutable object graph
of parsed packet values is an explicit heap (`Heap`) of dictionaries and
lists addressed by natural numbers.
-/

set_option maxHeartbeats 1000000
set_option linter.unusedVariables false

namespace StarryPy

/-! ## Wire codec: VLQ and signed VLQ (src/starrypy/parser.py) -/

/-- Loop of `parse_vlq` (parser.py lines 70-80).  Python reads one byte at a
time; `ord(b'')` on an exhausted stream raises `TypeError`, which the
source catches and turns into `break`, so an exhausted stream simply
returns the value accumulated so far. -/
def parse_vlq_go : List Nat → Nat → Nat × List Nat
  | [], value => (value, [])
  | b :: rest, value =>
    let value' := (value <<< 7) ||| (b &&& 0x7f)
    if b &&& 0x80 == 0 then (value', rest) else parse_vlq_go rest value'

/-- Model of `parse_vlq` (parser.py lines 70-80): big-endian base-128 accumulation. -/
def parse_vlq (stream : List Nat) : Nat × List Nat :=
  parse_vlq_go stream 0

/-- The `while value > 0` loop of `build_vlq` (parser.py lines 89-94):
extract 7-bit groups least-significant first, inserting at the front; the
continuation bit is set on a group when the value shifted past it is still
non-zero. -/
def build_vlq_loop (value : Nat) (result : List Nat) : List Nat :=
  if h : value = 0 then result
  else
    build_vlq_loop (value >>> 7)
      ((if value >>> 7 ≠ 0 then (value &&& 0x7f) ||| 0x80 else value &&& 0x7f) :: result)
termination_by value
decreasing_by
  simp only [Nat.shiftRight_eq_div_pow]
  exact Nat.div_lt_self (Nat.pos_of_ne_zero h) (by norm_num)

/-- Model of `result[0] |= 0x80` (parser.py line 96). -/
def set_first : List Nat → List Nat
  | [] => []
  | x :: xs => (x ||| 0x80) :: xs

/-- Model of `result[-1] ^= 0x80` (parser.py line 97). -/
def clear_last : List Nat → List Nat
  | [] => []
  | [x] => [x ^^^ 0x80]
  | x :: y :: xs => x :: clear_last (y :: xs)

/-- Model of `build_vlq` (parser.py lines 83-98): zero encodes as one `0x00` byte;
otherwise the loop above runs and, when more than one byte came out, the
first byte gets the continuation bit set and the last gets it cleared. -/
def build_vlq (obj : Nat) : List Nat :=
  if obj = 0 then [0]
  else
    let result := build_vlq_loop obj []
    if result.length > 1 then clear_last (set_first result) else result

/-- Model of `parse_signed_vlq` (parser.py lines 101-106): even payloads are
non-negative halves, odd payloads encode `-((v >> 1) + 1)`. -/
def parse_signed_vlq (stream : List Nat) : Int × List Nat :=
  let (v, rest) := parse_vlq stream
  if v &&& 1 == 0 then (((v >>> 1 : Nat) : Int), rest)
  else (-(((v >>> 1 : Nat) : Int) + 1), rest)

/-- Model of `build_signed_vlq` (parser.py lines 109-113): encode `abs(2n)` for
`n ≥ 0` and `abs(2n) - 1` for `n < 0` as an unsigned VLQ. -/
def build_signed_vlq (obj : Int) : List Nat :=
  let value := (obj * 2).natAbs
  build_vlq (if obj < 0 then value - 1 else value)

/-! ### Round-trip proof for the VLQ codec -/

/-- Big-endian base-128 digits of `n`, no leading zero digit; `[]` for 0. -/
def vlq_digits (n : Nat) : List Nat :=
  if h : n = 0 then []
  else vlq_digits (n >>> 7) ++ [n &&& 0x7f]
termination_by n
decreasing_by
  simp only [Nat.shiftRight_eq_div_pow]
  exact Nat.div_lt_self (Nat.pos_of_ne_zero h) (by norm_num)

/-- The shape `build_vlq_loop` produces: continuation bit on every digit
except the head (most significant). -/
def pre_flag : List Nat → List Nat
  | [] => []
  | d :: rest => d :: rest.map (· ||| 0x80)

/-- The final on-wire shape: continuation bit on every byte but the last. -/
def flag_all_but_last : List Nat → List Nat
  | [] => []
  | [d] => [d]
  | d :: e :: rest => (d ||| 0x80) :: flag_all_but_last (e :: rest)

theorem and_127_eq_mod (b : Nat) : b &&& 127 = b % 128 :=
  Nat.and_pow_two_sub_one_eq_mod b 7

theorem shiftRight_7_eq_div (b : Nat) : b >>> 7 = b / 128 := by
  simp [Nat.shiftRight_eq_div_pow]

theorem shiftLeft_7_eq_mul (b : Nat) : b <<< 7 = b * 128 := by
  simp [Nat.shiftLeft_eq]

theorem or_128_eq_add {x : Nat} (h : x < 128) : x ||| 128 = x + 128 := by
  have h2 : (2 : Nat) ^ 7 * 1 + x = 2 ^ 7 * 1 ||| x := Nat.mul_add_lt_is_or h 1
  have h3 : 128 + x = 128 ||| x := by simpa using h2
  rw [Nat.lor_comm, ← h3]
  omega

theorem and_128_eq_zero {x : Nat} (h : x < 128) : x &&& 128 = 0 := by
  have hb : x.testBit 7 = false := Nat.testBit_eq_false_of_lt (by simpa using h)
  have := Nat.and_two_pow x 7
  simpa [hb] using this

theorem lor_eq_xor_of_and_eq_zero {m n : Nat} (h : m &&& n = 0) : m ||| n = m ^^^ n := by
  apply Nat.eq_of_testBit_eq
  intro i
  have hb : (m &&& n).testBit i = false := by simp [h]
  rw [Nat.testBit_and] at hb
  rw [Nat.testBit_or, Nat.testBit_xor]
  cases hm : m.testBit i <;> cases hn : n.testBit i <;> simp_all

theorem add_128_xor {x : Nat} (h : x < 128) : (x + 128) ^^^ 128 = x := by
  have h1 : x + 128 = x ||| 128 := (or_128_eq_add h).symm
  have h2 : x ||| 128 = x ^^^ 128 := lor_eq_xor_of_and_eq_zero (and_128_eq_zero h)
  rw [h1, h2, Nat.xor_cancel_right]

theorem add_128_and_127 {x : Nat} (h : x < 128) : (x + 128) &&& 127 = x := by
  rw [and_127_eq_mod]
  omega

theorem add_128_and_128 {x : Nat} (h : x < 128) : (x + 128) &&& 128 = 128 := by
  have hb : (x + 128).testBit 7 = true := by
    rw [Nat.testBit_to_div_mod]
    have hdiv : (x + 128) / 128 = 1 := by omega
    norm_num [hdiv]
  have := Nat.and_two_pow (x + 128) 7
  simpa [hb] using this

theorem vlq_digits_zero : vlq_digits 0 = [] := by
  rw [vlq_digits]
  simp

theorem vlq_digits_ne_zero {n : Nat} (h : n ≠ 0) :
    vlq_digits n = vlq_digits (n >>> 7) ++ [n &&& 0x7f] := by
  conv_lhs => rw [vlq_digits]
  simp [h]

theorem vlq_digits_eq_nil_iff {n : Nat} : vlq_digits n = [] ↔ n = 0 := by
  constructor
  · intro h
    by_contra hn
    rw [vlq_digits_ne_zero hn] at h
    simp at h
  · intro h
    subst h
    exact vlq_digits_zero

theorem vlq_digits_all_lt (n : Nat) : ∀ d ∈ vlq_digits n, d < 128 := by
  induction n using Nat.strong_induction_on with
  | _ n ih =>
    by_cases h : n = 0
    · subst h
      rw [vlq_digits_zero]
      intro d hd
      simp at hd
    · rw [vlq_digits_ne_zero h]
      intro d hd
      rcases List.mem_append.mp hd with hd | hd
      · have hlt : n >>> 7 < n := by
          rw [shiftRight_7_eq_div]
          exact Nat.div_lt_self (Nat.pos_of_ne_zero h) (by norm_num)
        exact ih _ hlt d hd
      · simp at hd
        subst hd
        rw [and_127_eq_mod]
        omega

theorem pre_flag_append_singleton {xs : List Nat} (h : xs ≠ []) (d : Nat) :
    pre_flag (xs ++ [d]) = pre_flag xs ++ [d ||| 0x80] := by
  cases xs with
  | nil => exact absurd rfl h
  | cons x rest => simp [pre_flag]

theorem build_vlq_loop_eq (v : Nat) (hv : v ≠ 0) (acc : List Nat) :
    build_vlq_loop v acc = pre_flag (vlq_digits v) ++ acc := by
  induction v using Nat.strong_induction_on generalizing acc with
  | _ v ih =>
    rw [build_vlq_loop]
    simp only [hv, dite_false]
    by_cases h7 : v >>> 7 = 0
    · rw [build_vlq_loop]
      simp only [h7, dite_true, if_neg (by simp : ¬(0 : Nat) ≠ 0)]
      rw [vlq_digits_ne_zero hv, h7, vlq_digits_zero]
      simp [pre_flag]
    · have hlt : v >>> 7 < v := by
        rw [shiftRight_7_eq_div]
        exact Nat.div_lt_self (Nat.pos_of_ne_zero hv) (by norm_num)
      rw [ih _ hlt h7]
      rw [vlq_digits_ne_zero hv]
      rw [pre_flag_append_singleton (by rwa [ne_eq, vlq_digits_eq_nil_iff])]
      simp [h7]

theorem clear_last_map_flag {l : List Nat} (hne : l ≠ []) (hlt : ∀ d ∈ l, d < 128) :
    clear_last (l.map (· ||| 0x80)) = flag_all_but_last l := by
  induction l with
  | nil => exact absurd rfl hne
  | cons d rest ih =>
    cases rest with
    | nil =>
      have hd : d < 128 := hlt d (by simp)
      simp only [List.map_cons, List.map_nil, clear_last, flag_all_but_last]
      rw [or_128_eq_add hd, add_128_xor hd]
    | cons e rest' =>
      have step : clear_last ((d ||| 0x80) :: (e :: rest').map (· ||| 0x80)) =
          (d ||| 0x80) :: clear_last ((e :: rest').map (· ||| 0x80)) := by
        simp [clear_last]
      simp only [List.map_cons] at step ⊢
      rw [step]
      rw [show ((e ||| 0x80) :: rest'.map (· ||| 0x80)) = ((e :: rest').map (· ||| 0x80)) by simp]
      rw [ih (by simp) (fun x hx => hlt x (List.mem_cons_of_mem d hx))]
      rfl

theorem fixup_pre_flag {l : List Nat} (hlen : 1 < l.length) (hlt : ∀ d ∈ l, d < 128) :
    clear_last (set_first (pre_flag l)) = flag_all_but_last l := by
  cases l with
  | nil => simp at hlen
  | cons x rest =>
    cases rest with
    | nil => simp at hlen
    | cons y rest' =>
      simp only [pre_flag, set_first, List.map_cons]
      have step : clear_last ((x ||| 0x80) :: (y ||| 0x80) :: rest'.map (· ||| 0x80)) =
          (x ||| 0x80) :: clear_last ((y ||| 0x80) :: rest'.map (· ||| 0x80)) := by
        simp [clear_last]
      rw [step]
      rw [show ((y ||| 0x80) :: rest'.map (· ||| 0x80)) = ((y :: rest').map (· ||| 0x80)) by simp]
      rw [clear_last_map_flag (by simp) (fun d hd => hlt d (List.mem_cons_of_mem x hd))]
      rfl

theorem pre_flag_length (l : List Nat) : (pre_flag l).length = l.length := by
  cases l <;> simp [pre_flag]

theorem flag_all_but_last_ne_nil {l : List Nat} (h : l ≠ []) :
    flag_all_but_last l ≠ [] := by
  cases l with
  | nil => exact absurd rfl h
  | cons d rest => cases rest <;> simp [flag_all_but_last]

theorem build_vlq_eq_flag {n : Nat} (hn : n ≠ 0) :
    build_vlq n = flag_all_but_last (vlq_digits n) := by
  rw [build_vlq, if_neg hn]
  rw [build_vlq_loop_eq n hn []]
  rw [List.append_nil]
  by_cases hlen : 1 < (pre_flag (vlq_digits n)).length
  · rw [if_pos hlen]
    exact fixup_pre_flag (by rwa [pre_flag_length] at hlen) (vlq_digits_all_lt n)
  · rw [if_neg hlen]
    rw [pre_flag_length] at hlen
    have hne : vlq_digits n ≠ [] := by rwa [ne_eq, vlq_digits_eq_nil_iff]
    match hd : vlq_digits n with
    | [] => exact absurd hd hne
    | [d] => simp [pre_flag, flag_all_but_last]
    | d :: e :: rest => rw [hd] at hlen; simp at hlen

theorem parse_vlq_go_flag {l : List Nat} (hne : l ≠ []) (hlt : ∀ d ∈ l, d < 128)
    (rest : List Nat) (value : Nat) :
    parse_vlq_go (flag_all_but_last l ++ rest) value =
      (l.foldl (fun a d => a * 128 + d) value, rest) := by
  induction l generalizing value with
  | nil => exact absurd rfl hne
  | cons d tail ih =>
    cases tail with
    | nil =>
      have hd : d < 128 := hlt d (by simp)
      simp only [flag_all_but_last, List.cons_append, List.nil_append, parse_vlq_go]
      rw [and_127_eq_mod, Nat.mod_eq_of_lt hd, shiftLeft_7_eq_mul]
      have hor : value * 128 ||| d = value * 128 + d := by
        have := Nat.mul_add_lt_is_or (i := 7) (by simpa using hd) value
        simpa [Nat.mul_comm] using this.symm
      rw [hor, and_128_eq_zero hd]
      simp [List.foldl]
    | cons e tail' =>
      have hd : d < 128 := hlt d (by simp)
      simp only [flag_all_but_last, List.cons_append, parse_vlq_go]
      rw [or_128_eq_add hd]
      rw [add_128_and_127 hd, add_128_and_128 hd, shiftLeft_7_eq_mul]
      have hor : value * 128 ||| d = value * 128 + d := by
        have := Nat.mul_add_lt_is_or (i := 7) (by simpa using hd) value
        simpa [Nat.mul_comm] using this.symm
      rw [hor]
      simp only [show (128 == 0) = false by rfl, Bool.false_eq_true, if_false,
        List.append_eq]
      rw [ih (by simp) (fun x hx => hlt x (List.mem_cons_of_mem d hx))]
      simp [List.foldl]

theorem vlq_digits_foldl (n : Nat) :
    ∀ value : Nat, (vlq_digits n).foldl (fun a d => a * 128 + d) value =
      value * 128 ^ (vlq_digits n).length + n := by
  induction n using Nat.strong_induction_on with
  | _ n ih =>
    intro value
    by_cases h : n = 0
    · subst h
      rw [vlq_digits_zero]
      simp
    · rw [vlq_digits_ne_zero h]
      have hlt : n >>> 7 < n := by
        rw [shiftRight_7_eq_div]
        exact Nat.div_lt_self (Nat.pos_of_ne_zero h) (by norm_num)
      rw [List.foldl_append]
      rw [ih _ hlt value]
      simp only [List.foldl]
      rw [List.length_append, List.length_cons, List.length_nil]
      rw [shiftRight_7_eq_div, and_127_eq_mod]
      have hdm : n / 128 * 128 + n % 128 = n := by
        have := Nat.div_add_mod n 128
        omega
      rw [pow_succ]
      ring_nf
      ring_nf at hdm ⊢
      omega

theorem parse_build_vlq (n : Nat) : parse_vlq (build_vlq n) = (n, []) := by
  by_cases h : n = 0
  · subst h
    rfl
  · rw [build_vlq_eq_flag h]
    have hne : vlq_digits n ≠ [] := by rwa [ne_eq, vlq_digits_eq_nil_iff]
    have := parse_vlq_go_flag hne (vlq_digits_all_lt n) [] 0
    rw [List.append_nil] at this
    rw [parse_vlq, this, vlq_digits_foldl n 0]
    simp

theorem and_1_eq_mod (v : Nat) : v &&& 1 = v % 2 :=
  Nat.and_pow_two_sub_one_eq_mod v 1

theorem shiftRight_1_eq_div (v : Nat) : v >>> 1 = v / 2 := by
  simp [Nat.shiftRight_eq_div_pow]

theorem parse_build_signed_vlq (n : Int) :
    parse_signed_vlq (build_signed_vlq n) = (n, []) := by
  by_cases hn : n < 0
  · have hk : 1 ≤ n.natAbs := by
      rcases n with m | m
      · omega
      · simp
    have habs : (n * 2).natAbs = n.natAbs * 2 := by
      rw [Int.natAbs_mul]
      rfl
    rw [build_signed_vlq]
    simp only [hn, if_true, habs]
    rw [parse_signed_vlq, parse_build_vlq]
    simp only [and_1_eq_mod, shiftRight_1_eq_div]
    have hmod : (n.natAbs * 2 - 1) % 2 = 1 := by omega
    have hdiv : (n.natAbs * 2 - 1) / 2 = n.natAbs - 1 := by omega
    rw [hmod, hdiv]
    simp only [show ((1 : Nat) == 0) = false by rfl, Bool.false_eq_true, if_false]
    have : ((n.natAbs - 1 : Nat) : Int) = n.natAbs - 1 := by
      omega
    rw [this]
    have hcast : (n.natAbs : Int) = -n := Int.ofNat_natAbs_of_nonpos (le_of_lt hn)
    have hval : (-((n.natAbs : Int) - 1 + 1)) = n := by
      rw [hcast]
      ring
    rw [hval]
  · push_neg at hn
    have habs : (n * 2).natAbs = n.natAbs * 2 := by
      rw [Int.natAbs_mul]
      rfl
    rw [build_signed_vlq]
    simp only [not_lt.mpr hn, if_false, habs]
    rw [parse_signed_vlq, parse_build_vlq]
    simp only [and_1_eq_mod, shiftRight_1_eq_div]
    have hmod : n.natAbs * 2 % 2 = 0 := by omega
    have hdiv : n.natAbs * 2 / 2 = n.natAbs := by omega
    rw [hmod, hdiv]
    simp only [show ((0 : Nat) == 0) = true by rfl, if_true]
    have hcast : (n.natAbs : Int) = n := Int.natAbs_of_nonneg hn
    rw [hcast]

/-! ## Python exceptions -/

/-- The Python exception kinds the embedded code can raise. -/
inductive PyErr where
  | typeError
  | valueError
  | indexError
  | keyError
  | unicodeDecodeError
  | structError
  | zlibError
  | incompleteReadError
  | notImplementedError
  | recursionError
deriving DecidableEq, Repr

/-! ## Byte arrays and UTF-8 strings (src/starrypy/parser.py) -/

/-- Model of `parse_byte_array` (parser.py lines 116-118): a VLQ length followed by
that many bytes; `stream.read(n)` returns at most the bytes available, so
a short stream yields a short array rather than an error. -/
def parse_byte_array (s : List Nat) : List Nat × List Nat :=
  let (array_len, rest) := parse_vlq s
  (rest.take array_len, rest.drop array_len)

/-- Model of `build_byte_array` (parser.py lines 121-122). -/
def build_byte_array (obj : List Nat) : List Nat :=
  build_vlq obj.length ++ obj

/-- UTF-8 encoding of one Unicode code point (the codec Python's
`str.encode("utf-8")` applies character by character). -/
def utf8_encode_char (c : Nat) : List Nat :=
  if c < 0x80 then [c]
  else if c < 0x800 then [0xC0 + c / 0x40, 0x80 + c % 0x40]
  else if c < 0x10000 then [0xE0 + c / 0x1000, 0x80 + c / 0x40 % 0x40, 0x80 + c % 0x40]
  else [0xF0 + c / 0x40000, 0x80 + c / 0x1000 % 0x40, 0x80 + c / 0x40 % 0x40, 0x80 + c % 0x40]

/-- Python `str.encode("utf-8")`. -/
def str_encode (s : String) : List Nat :=
  (s.data.map (fun c => utf8_encode_char c.toNat)).flatten

/-- Is `b` a UTF-8 continuation byte? -/
def utf8_is_cont (b : Nat) : Bool :=
  0x80 ≤ b && b ≤ 0xBF

/-- Strict UTF-8 decoding to code points, rejecting overlong forms,
surrogates and values beyond U+10FFFF — the behaviour of Python's strict
`bytes.decode("utf-8")`, `none` standing for `UnicodeDecodeError`. -/
def utf8_decode : List Nat → Option (List Char)
  | [] => some []
  | b :: rest =>
    if b < 0x80 then
      (utf8_decode rest).map (Char.ofNat b :: ·)
    else if 0xC2 ≤ b && b ≤ 0xDF then
      match rest with
      | c1 :: rest' =>
        if utf8_is_cont c1 then
          (utf8_decode rest').map (Char.ofNat ((b - 0xC0) * 0x40 + (c1 - 0x80)) :: ·)
        else none
      | [] => none
    else if 0xE0 ≤ b && b ≤ 0xEF then
      match rest with
      | c1 :: c2 :: rest' =>
        if (utf8_is_cont c1 && utf8_is_cont c2)
            && (!(b == 0xE0) || 0xA0 ≤ c1) && (!(b == 0xED) || c1 ≤ 0x9F) then
          (utf8_decode rest').map
            (Char.ofNat ((b - 0xE0) * 0x1000 + (c1 - 0x80) * 0x40 + (c2 - 0x80)) :: ·)
        else none
      | _ => none
    else if 0xF0 ≤ b && b ≤ 0xF4 then
      match rest with
      | c1 :: c2 :: c3 :: rest' =>
        if (utf8_is_cont c1 && utf8_is_cont c2 && utf8_is_cont c3)
            && (!(b == 0xF0) || 0x90 ≤ c1) && (!(b == 0xF4) || c1 ≤ 0x8F) then
          (utf8_decode rest').map
            (Char.ofNat ((b - 0xF0) * 0x40000 + (c1 - 0x80) * 0x1000
              + (c2 - 0x80) * 0x40 + (c3 - 0x80)) :: ·)
        else none
      | _ => none
    else none

/-- Python `bytes.decode("utf-8")`; invalid byte sequences raise
`UnicodeDecodeError`. -/
def bytes_decode_utf8 (bs : List Nat) : Except PyErr String :=
  match utf8_decode bs with
  | some cs => .ok ⟨cs⟩
  | none => .error .unicodeDecodeError

/-- Model of `parse_utf8_string` (parser.py lines 125-126). -/
def parse_utf8_string (s : List Nat) : Except PyErr (String × List Nat) :=
  let (bs, rest) := parse_byte_array s
  match bytes_decode_utf8 bs with
  | .ok str => .ok (str, rest)
  | .error e => .error e

/-- Model of `build_utf8_string` (parser.py lines 129-130). -/
def build_utf8_string (obj : String) : List Nat :=
  build_byte_array (str_encode obj)

/-- The list comprehension in `parse_string_set` (parser.py line 135):
`set_len` repetitions of `parse_utf8_string`. -/
def parse_string_set_go : Nat → List Nat → Except PyErr (List String × List Nat)
  | 0, s => .ok ([], s)
  | n + 1, s => do
    let (x, s') ← parse_utf8_string s
    let (xs, s'') ← parse_string_set_go n s'
    .ok (x :: xs, s'')

/-- Model of `parse_string_set` (parser.py lines 133-135): VLQ count, then that many
length-prefixed UTF-8 strings. -/
def parse_string_set (s : List Nat) : Except PyErr (List String × List Nat) :=
  let (set_len, rest) := parse_vlq s
  parse_string_set_go set_len rest

/-- Model of `build_string_set` (parser.py lines 138-141): the VLQ count followed by
`b"".join(x.encode("utf-8") for x in obj)` — the encoded strings are
concatenated with *no* per-element length prefix. -/
def build_string_set (obj : List String) : List Nat :=
  build_vlq obj.length ++ (obj.map str_encode).flatten

/-- Evaluation helper: a single-byte VLQ. -/
theorem build_vlq_small {n : Nat} (h0 : n ≠ 0) (h : n < 128) : build_vlq n = [n] := by
  rw [build_vlq_eq_flag h0, vlq_digits_ne_zero h0]
  have h7 : n >>> 7 = 0 := by
    rw [shiftRight_7_eq_div]
    omega
  rw [h7, vlq_digits_zero]
  simp [flag_all_but_last, and_127_eq_mod, Nat.mod_eq_of_lt h]

/-! ## Claim theorems about the byte-level codec -/

theorem parse_vlq_go_all_cont (stream : List Nat) :
    ∀ value : Nat, (∀ b ∈ stream, b &&& 0x80 ≠ 0) →
    parse_vlq_go stream value =
      (stream.foldl (fun v b => (v <<< 7) ||| (b &&& 0x7f)) value, []) := by
  induction stream with
  | nil =>
    intro value _
    rfl
  | cons b rest ih =>
    intro value h
    have hb : b &&& 0x80 ≠ 0 := h b (by simp)
    simp only [parse_vlq_go, List.foldl]
    rw [if_neg (by simpa using hb)]
    exact ih _ (fun x hx => h x (List.mem_cons_of_mem b hx))

/-- C10: `parse_vlq` is total on every byte string: when the input ends
before a byte with the high bit clear is found (including empty input), it
returns the value accumulated so far (0 for empty input) instead of
raising — the `TypeError` from `ord(b'')` is caught and turned into
`break` — so truncated bodies decode silently to a partial value. -/
theorem C10_parse_vlq_truncated_total :
    parse_vlq [] = (0, []) ∧
    ∀ stream : List Nat, (∀ b ∈ stream, b &&& 0x80 ≠ 0) →
      parse_vlq stream = (stream.foldl (fun v b => (v <<< 7) ||| (b &&& 0x7f)) 0, []) := by
  refine ⟨rfl, ?_⟩
  intro stream h
  exact parse_vlq_go_all_cont stream 0 h

/-- Witness for C10: the all-continuation stream `[0x85, 0x81]` decodes to
the partial value 641 with nothing left unread. -/
theorem C10_parse_vlq_truncated_total_witness :
    parse_vlq [0x85, 0x81] = (641, []) := by
  have h := C10_parse_vlq_truncated_total.2 [0x85, 0x81] (by decide)
  simpa using h

/-- C9: for every integer n in [-2^63, 2^63), decoding the signed-VLQ
encoding of n returns n, where the encoding maps n ≥ 0 to the VLQ of 2|n|
and n < 0 to the VLQ of 2|n| - 1. -/
theorem C9_signed_vlq_roundtrip (n : Int)
    (h1 : -(2 ^ 63) ≤ n) (h2 : n < 2 ^ 63) :
    parse_signed_vlq (build_signed_vlq n) = (n, []) :=
  parse_build_signed_vlq n

/-- Witness for C9 at n = -5. -/
theorem C9_signed_vlq_roundtrip_witness :
    parse_signed_vlq (build_signed_vlq (-5)) = (-5, []) :=
  C9_signed_vlq_roundtrip (-5) (by decide) (by decide)

/-- C5 (code bug): the string-set encoder does *not* emit length-prefixed
strings — `build_string_set` concatenates the UTF-8 bytes with no
per-element length prefix, while `parse_string_set` expects
length-prefixed strings — so the round trip fails already on `["a"]`:
the encoding is `[0x01, 0x61]` and decoding it yields `[""]`, because the
byte 0x61 is consumed as a string length. -/
theorem C5_string_set_eval :
    build_string_set ["a"] = [0x01, 0x61] ∧
    parse_string_set (build_string_set ["a"]) = .ok ([""], []) ∧
    ([""] : List String) ≠ ["a"] := by
  have hb : build_string_set ["a"] = [0x01, 0x61] := by
    rw [build_string_set]
    rw [show (["a"] : List String).length = 1 from rfl]
    rw [build_vlq_small (by decide) (by decide)]
    rfl
  refine ⟨hb, ?_, by decide⟩
  rw [hb]
  rfl

/-! ## Python object heap

Parsed packet values are Python dicts and lists, which are mutable objects
passed by reference.  We model the object graph explicitly: primitives are
immediate values, containers live on a heap addressed by allocation order.
-/

/-- An immediate Python value.  `float` keeps the 8 big-endian IEEE bytes
opaque; `ref` is a reference to a heap container. -/
inductive PyVal where
  | none
  | bool (b : Bool)
  | int (n : Int)
  | str (s : String)
  | bytes (bs : List Nat)
  | float (bits : List Nat)
  | ref (addr : Nat)
deriving DecidableEq, Repr

/-- A heap container: a Python `dict` (insertion-ordered) or `list`. -/
inductive PyObj where
  | dict (fields : List (String × PyVal))
  | list (items : List PyVal)
deriving DecidableEq, Repr

/-- The heap: the object at address `i` is entry `i`; allocation appends. -/
abbrev Heap := List PyObj

def heap_alloc (h : Heap) (o : PyObj) : Heap × Nat :=
  (h ++ [o], h.length)

def heap_get (h : Heap) (a : Nat) : Option PyObj :=
  h[a]?

def heap_set (h : Heap) (a : Nat) (o : PyObj) : Heap :=
  h.set a o

theorem heap_get_alloc (h : Heap) (o : PyObj) :
    heap_get (heap_alloc h o).1 (heap_alloc h o).2 = some o := by
  simp [heap_alloc, heap_get]

/-- Python dict insertion: an existing key keeps its position and gets the
new value, a new key is appended. -/
def dict_insert (fields : List (String × PyVal)) (k : String) (v : PyVal) :
    List (String × PyVal) :=
  match fields with
  | [] => [(k, v)]
  | (k', v') :: rest =>
    if k' = k then (k', v) :: rest else (k', v') :: dict_insert rest k v

/-- Key lookup in a dict's field list. -/
def dict_lookup (fields : List (String × PyVal)) (k : String) : Option PyVal :=
  match fields with
  | [] => Option.none
  | (k', v) :: rest => if k' = k then some v else dict_lookup rest k

/-- The field list of the dict `v` references, if any. -/
def dict_fields (h : Heap) (v : PyVal) : Option (List (String × PyVal)) :=
  match v with
  | .ref a =>
    match heap_get h a with
    | some (.dict fs) => some fs
    | _ => Option.none
  | _ => Option.none

/-- In-place `d[k] = v` on the dict at address `a`. -/
def dict_set (h : Heap) (a : Nat) (k : String) (v : PyVal) : Heap :=
  match heap_get h a with
  | some (.dict fs) => heap_set h a (.dict (dict_insert fs k v))
  | _ => h

/-- Model of `dict.copy()`: a *shallow* copy — a fresh dict object with the same
field list, nested references shared.  (The parsed values the registered
decoders produce are always dicts.) -/
def dict_shallow_copy (h : Heap) (a : Nat) : Heap × Nat :=
  match heap_get h a with
  | some (.dict fs) => heap_alloc h (.dict fs)
  | _ => (h, a)

/-- Python truthiness `bool(x)` of a value, dereferencing container refs. -/
def truthy (h : Heap) : PyVal → Bool
  | .none => false
  | .bool b => b
  | .int n => n != 0
  | .str s => s != ""
  | .bytes bs => !bs.isEmpty
  | .float bits => !(bits == [0, 0, 0, 0, 0, 0, 0, 0] || bits == [128, 0, 0, 0, 0, 0, 0, 0])
  | .ref a =>
    match heap_get h a with
    | some (.dict fs) => !fs.isEmpty
    | some (.list xs) => !xs.isEmpty
    | Option.none => true

/-! ## Hook dispatcher (src/starrypy/plugin_manager.py, `hook_event`) -/

/-- What one hook handler invocation does: return a value or raise. -/
inductive HandlerOutcome where
  | returns (v : PyVal)
  | raises (e : PyErr)
deriving DecidableEq, Repr

/-- The handler loop of `hook_event` (plugin_manager.py lines 116-123):
`if not (await func(packet, client)): send_ahead = False`, with any
handler exception caught, logged, and the chain continued.  Returns the
final `send_ahead` together with the number of handlers invoked. -/
def hook_loop (h : Heap) : List HandlerOutcome → Bool → Bool × Nat
  | [], send_ahead => (send_ahead, 0)
  | .returns v :: rest, send_ahead =>
    let send' := if truthy h v then send_ahead else false
    let r := hook_loop h rest send'
    (r.1, r.2 + 1)
  | .raises _ :: rest, send_ahead =>
    let r := hook_loop h rest send_ahead
    (r.1, r.2 + 1)

/-- The hook chain's result: `send_ahead` starts out `True`
(plugin_manager.py line 104). -/
def hook_event_result (h : Heap) (chain : List HandlerOutcome) : Bool × Nat :=
  hook_loop h chain true

theorem hook_loop_count (h : Heap) (chain : List HandlerOutcome) :
    ∀ s, (hook_loop h chain s).2 = chain.length := by
  induction chain with
  | nil => intro s; rfl
  | cons x rest ih =>
    intro s
    cases x <;> simp [hook_loop, ih]

theorem hook_loop_false (h : Heap) (chain : List HandlerOutcome) :
    (hook_loop h chain false).1 = false := by
  induction chain with
  | nil => rfl
  | cons x rest ih =>
    cases x with
    | returns v =>
      simp only [hook_loop]
      cases truthy h v <;> simpa using ih
    | raises e => simpa [hook_loop] using ih

theorem hook_loop_append (h : Heap) (l1 l2 : List HandlerOutcome) :
    ∀ s, (hook_loop h (l1 ++ l2) s).1 = (hook_loop h l2 (hook_loop h l1 s).1).1 := by
  induction l1 with
  | nil => intro s; rfl
  | cons x rest ih =>
    intro s
    cases x <;> simp [hook_loop, ih]

/-- C8: a handler returning False sets the chain's forward result to false,
every remaining handler in the chain is still invoked afterwards (the
invocation count equals the chain length), and the final result stays
false regardless of later handlers' return values. -/
theorem C8_false_veto_still_runs_chain (h : Heap) (pre post : List HandlerOutcome) :
    (hook_event_result h (pre ++ .returns (.bool false) :: post)).1 = false ∧
    (hook_event_result h (pre ++ .returns (.bool false) :: post)).2 =
      (pre ++ .returns (.bool false) :: post).length := by
  constructor
  · rw [hook_event_result, hook_loop_append]
    have hstep : (hook_loop h (.returns (.bool false) :: post) (hook_loop h pre true).1).1 =
        (hook_loop h post false).1 := by
      simp [hook_loop, truthy]
    rw [hstep, hook_loop_false]
  · rw [hook_event_result, hook_loop_count]

/-- C2 (counterexample): a handler that returns None — neither True nor
False — does *not* leave the forward flag unchanged: `not None` is true in
Python, so `hook_event` sets `send_ahead = False` for the chain consisting
of that single handler, where the claim says the result stays true. -/
theorem C2_none_return_counterexample :
    (hook_event_result [] [.returns .none]).1 = false := by
  rfl

/-- C2 (amended): `hook_event` interprets a handler's return value by
Python truthiness: a falsy return (None, False, 0, empty string, bytes or
container) sets the forward flag to false, while any truthy return —
including non-boolean values — leaves it unchanged.  Equivalently, the
flag after the handler is `send_ahead && truthy v`. -/
theorem C2_truthiness_amended (h : Heap) (v : PyVal) (rest : List HandlerOutcome) (s : Bool) :
    (hook_loop h (.returns v :: rest) s).1 = (hook_loop h rest (s && truthy h v)).1 := by
  simp only [hook_loop]
  cases truthy h v <;> cases s <;> simp

/-! ## Command dispatcher (src/starrypy/command_dispatcher.py)

Python `str` values are manipulated here as their character lists
(`List Char`): Python indexes and slices strings by character, and the
character level is what the kernel can evaluate.
-/

/-- Python `content.startswith(deco)` (first argument is `deco`). -/
def py_startswith : List Char → List Char → Bool
  | [], _ => true
  | _ :: _, [] => false
  | d :: ds, c :: cs => d == c && py_startswith ds cs

/-- The first token of Python `s.split()` (split on whitespace runs,
empties dropped); `none` when there is no token, in which case the
source's `[0]` raises `IndexError`. -/
def first_ws_token (cs : List Char) : Option (List Char) :=
  let rest := cs.dropWhile Char.isWhitespace
  if rest.isEmpty then Option.none
  else some (rest.takeWhile (fun c => !c.isWhitespace))

/-- The visible effect of `command_check` besides its return value. -/
inductive CommandAction where
  | no_action
  | ran (cmd : List Char)
  | reply (msg : List Char)
deriving DecidableEq, Repr

/-- Model of `CommandDispatcher.command_check` (command_dispatcher.py lines
105-115) on a CHAT_SENT packet whose parsed text is `content`, with the
configured command leader `deco` (default `"/"`) and command table
`commands`: when the text starts with `deco`, the first token is
lowercased and either dispatched (known command) or answered with a
"does not exist" reply — and the function ends in an *unconditional*
`return False`.  (Python's `.lower()` is modelled with `Char.toLower`,
which agrees on the ASCII command names the repository registers.) -/
def command_check (deco : List Char) (commands : List (List Char)) (content : List Char) :
    CommandAction × HandlerOutcome :=
  if py_startswith deco content then
    match first_ws_token (content.drop deco.length) with
    | Option.none => (.no_action, .raises .indexError)
    | some tok =>
      let cmd := tok.map Char.toLower
      if commands.contains cmd then
        (.ran cmd, .returns (.bool false))
      else
        (.reply ("Command ".data ++ cmd ++ " does not exist. Try ".data
          ++ deco ++ "help for a list of commands.".data),
         .returns (.bool false))
  else (.no_action, .returns (.bool false))

/-- C1 (code bug, evaluated at the failing input): for the CHAT_SENT text
"hello", which does not begin with the configured "/", `command_check`
indeed leaves the message alone (no command run, no reply) — but it still
returns False, because the `return False` closing the hook is
unconditional, so the hook chain consisting of this hook yields
forward = false and the chat line is dropped instead of forwarded.
The claim (and spec §8: "A message without the prefix is ignored and
forwarded") requires forward = true here. -/
theorem C1_nonprefixed_chat_dropped :
    command_check "/".data ["help".data] "hello".data =
      (.no_action, .returns (.bool false)) ∧
    (hook_event_result [] [(command_check "/".data ["help".data] "hello".data).2]).1
      = false := by
  constructor
  · rfl
  · rfl

/-! ## The Packet object (src/starrypy/packet.py) -/

/-- Model of `Packet` attribute record.  `size` holds whatever Python value the
attribute was assigned (`read_packet` passes the raw size *bytes*),
`original_data` is `None` or bytes, `parsed_data` and `edited_data` are
dict references into the heap. -/
structure Packet where
  type : Nat
  size : PyVal
  compressed : Bool
  data : List Nat
  original_data : PyVal
  direction : Nat
  parsed_data : PyVal
  edited_data : PyVal
deriving DecidableEq, Repr

/-- Model of `Packet.__init__` (packet.py lines 9-23): when the `parsed_data`
argument is `None` a fresh empty dict is allocated, otherwise the passed
object itself is stored; `edited_data` is always a fresh empty dict. -/
def packet_init (h : Heap) (ptype : Nat) (data : List Nat) (direction : Nat)
    (size : PyVal) (compressed : Bool) (original_data : PyVal) (parsed_data : PyVal) :
    Heap × Packet :=
  match parsed_data with
  | .none =>
    let alloc_p := heap_alloc h (.dict [])
    let alloc_e := heap_alloc alloc_p.1 (.dict [])
    (alloc_e.1,
     { type := ptype, size := size, compressed := compressed, data := data,
       original_data := original_data, direction := direction,
       parsed_data := .ref alloc_p.2, edited_data := .ref alloc_e.2 })
  | v =>
    let alloc_e := heap_alloc h (.dict [])
    (alloc_e.1,
     { type := ptype, size := size, compressed := compressed, data := data,
       original_data := original_data, direction := direction,
       parsed_data := v, edited_data := .ref alloc_e.2 })

/-- Model of `Packet.copy` (packet.py lines 38-40): constructs a new Packet handing
over `parsed_data=self.parsed_data` — the parsed-value mapping is passed
by reference, not copied. -/
def packet_copy (h : Heap) (p : Packet) : Heap × Packet :=
  packet_init h p.type p.data p.direction p.size p.compressed p.original_data p.parsed_data

/-- Heap and packet for the C7 scenario: a CHAT_SENT packet that has been
parsed, its parsed value the dict `{"text": "hi"}` at address 0. -/
def c7_heap : Heap := [.dict [("text", .str "hi")], .dict []]

def c7_packet : Packet :=
  { type := 18, size := PyVal.none, compressed := false, data := [],
    original_data := PyVal.none, direction := 1,
    parsed_data := .ref 0, edited_data := .ref 1 }

/-- C7 (counterexample): `copy` is not deep enough for independent edits.
Before the copy the original's parsed value reads `{"text": "hi"}`; the
copy's `parsed_data` is the very same object (address 0), and an in-place
mutation `copy.parsed_data["text"] = "x"` changes what the *original*
packet's parsed value reads — the two are not independent, contradicting
the claim at this explicit input. -/
theorem C7_copy_not_independent_counterexample :
    dict_fields c7_heap c7_packet.parsed_data = some [("text", .str "hi")] ∧
    ((packet_copy c7_heap c7_packet).2).parsed_data = PyVal.ref 0 ∧
    dict_fields (dict_set (packet_copy c7_heap c7_packet).1 0 "text" (.str "x"))
        c7_packet.parsed_data = some [("text", PyVal.str "x")] ∧
    PyVal.str "x" ≠ PyVal.str "hi" := by
  refine ⟨rfl, rfl, rfl, by decide⟩

/-- C7 (amended): `Packet.copy` hands the parsed-value mapping over by
reference: for every packet whose `parsed_data` is not None, the copy's
`parsed_data` is the *same* object, so in-place mutations of either are
seen by both (as the counterexample shows concretely); only `edited_data`
is a fresh empty dict of the copy's own. -/
theorem C7_copy_shares_parsed (h : Heap) (p : Packet)
    (hne : p.parsed_data ≠ PyVal.none) :
    ((packet_copy h p).2).parsed_data = p.parsed_data ∧
    ((packet_copy h p).2).edited_data = PyVal.ref h.length ∧
    heap_get (packet_copy h p).1 h.length = some (.dict []) := by
  cases hp : p.parsed_data with
  | none => exact absurd hp hne
  | bool b => simp [packet_copy, packet_init, hp, heap_alloc, heap_get]
  | int n => simp [packet_copy, packet_init, hp, heap_alloc, heap_get]
  | str s => simp [packet_copy, packet_init, hp, heap_alloc, heap_get]
  | bytes bs => simp [packet_copy, packet_init, hp, heap_alloc, heap_get]
  | float bits => simp [packet_copy, packet_init, hp, heap_alloc, heap_get]
  | ref a => simp [packet_copy, packet_init, hp, heap_alloc, heap_get]

/-- Witness for C7 (amended) at the concrete scenario packet. -/
theorem C7_copy_shares_parsed_witness :
    ((packet_copy c7_heap c7_packet).2).parsed_data = c7_packet.parsed_data ∧
    ((packet_copy c7_heap c7_packet).2).edited_data = PyVal.ref c7_heap.length ∧
    heap_get (packet_copy c7_heap c7_packet).1 c7_heap.length = some (.dict []) :=
  C7_copy_shares_parsed c7_heap c7_packet (by decide)

/-! ## Frame reading (src/starrypy/packet.py `read_packet`,
src/starrypy/spy_utils.py `read_vlq` / `read_vlq_signed`) -/

/-- Model of `stream.readexactly(n)`: `IncompleteReadError` when fewer than `n`
bytes are available. -/
def readexactly (s : List Nat) (n : Nat) : Except PyErr (List Nat × List Nat) :=
  if s.length < n then .error .incompleteReadError else .ok (s.take n, s.drop n)

/-- Model of `read_vlq` (spy_utils.py lines 5-18): like `parse_vlq` but reading
from the socket, keeping the consumed raw bytes, and failing with
`IncompleteReadError` when the stream ends (it uses `readexactly`). -/
def read_vlq_go : List Nat → Nat → List Nat → Except PyErr (Nat × List Nat × List Nat)
  | [], _, _ => .error .incompleteReadError
  | b :: rest, value, raw =>
    let raw' := raw ++ [b]
    let value' := (value <<< 7) ||| (b &&& 0x7f)
    if b &&& 0x80 == 0 then .ok (value', raw', rest)
    else read_vlq_go rest value' raw'

def read_vlq (s : List Nat) : Except PyErr (Nat × List Nat × List Nat) :=
  read_vlq_go s 0 []

/-- Model of `read_vlq_signed` (spy_utils.py lines 21-26). -/
def read_vlq_signed (s : List Nat) : Except PyErr (Int × List Nat × List Nat) :=
  match read_vlq s with
  | .error e => .error e
  | .ok (v, raw, rest) =>
    if v &&& 1 == 0 then .ok (((v >>> 1 : Nat) : Int), raw, rest)
    else .ok (-(((v >>> 1 : Nat) : Int) + 1), raw, rest)

/-- The statement `raise asyncio.IncompleteReadError` (packet.py line 79):
raising a class object first instantiates it with no arguments, and
`asyncio.IncompleteReadError.__init__` *requires* the two positional
arguments `partial` and `expected` — so the instantiation itself fails
and the statement actually raises `TypeError`, not `IncompleteReadError`. -/
def bare_raise_incomplete_read : PyErr := .typeError

/-- Model of `read_packet` (packet.py lines 54-85).  `zlib.decompress` is an
external collaborator, passed in as a function returning `none` for
`zlib.error`. -/
def read_packet (zlib_decompress : List Nat → Option (List Nat)) (h : Heap)
    (stream : List Nat) (direction : Nat) : Except PyErr (Heap × Packet) :=
  match readexactly stream 1 with
  | .error e => .error e
  | .ok (packet_type, s1) =>
    match read_vlq_signed s1 with
    | .error e => .error e
    | .ok (packet_size, packet_size_data, s2) =>
      let sc : Nat × Bool :=
        if packet_size < 0 then (packet_size.natAbs, true) else (packet_size.toNat, false)
      match readexactly s2 sc.1 with
      | .error e => .error e
      | .ok (data, _s3) =>
        let p_type_int := packet_type.headD 0
        let final_data? : Except PyErr (List Nat) :=
          if sc.2 then
            match zlib_decompress data with
            | some d => .ok d
            | Option.none => .error bare_raise_incomplete_read
          else .ok data
        match final_data? with
        | .error e => .error e
        | .ok final_data =>
          let original_data := packet_type ++ packet_size_data ++ data
          .ok (packet_init h p_type_int final_data direction
            (.bytes packet_size_data) sc.2 (.bytes original_data) PyVal.none)

/-- C6 (code bug, evaluated at the failing input): the frame
`01 01 00` (type 1, size VLQ `01` = signed −1, one compressed body byte)
whose body fails zlib decompression makes `read_packet` raise
`TypeError` — the bare `raise asyncio.IncompleteReadError` instantiates
the exception class with no arguments and `IncompleteReadError.__init__`
requires `(partial, expected)` — so the error that escapes the zlib
branch is not the incomplete-read error the relay treats as
end-of-stream. -/
theorem C6_zlib_failure_raises_type_error :
    read_packet (fun _ => Option.none) [] [0x01, 0x01, 0x00] 0
      = .error PyErr.typeError ∧
    PyErr.typeError ≠ PyErr.incompleteReadError := by
  refine ⟨rfl, by decide⟩

/-! ## Tagged JSON (src/starrypy/parser.py `parse_json`) -/

/-- Model of `parse_byte` (parser.py lines 38-39): `ord(stream.read(1))`; on an
exhausted stream `ord(b'')` raises `TypeError`. -/
def parse_byte_e (s : List Nat) : Except PyErr (Nat × List Nat) :=
  match s with
  | b :: rest => .ok (b, rest)
  | [] => .error .typeError

/-- Model of `parse_with_struct(stream, "bool")`: one byte, any non-zero is True;
a short read raises `struct.error`. -/
def parse_with_struct_bool (s : List Nat) : Except PyErr (Bool × List Nat) :=
  match s with
  | b :: rest => .ok (b != 0, rest)
  | [] => .error .structError

/-- Model of `parse_with_struct(stream, "double")`: 8 big-endian IEEE bytes, kept
opaque; a short read raises `struct.error`. -/
def parse_with_struct_double (s : List Nat) : Except PyErr (List Nat × List Nat) :=
  if s.length < 8 then .error .structError else .ok (s.take 8, s.drop 8)

mutual

/-- Model of `parse_json` (parser.py lines 152-176): tag dispatch over the seven
TaggedJson kinds; an unknown tag raises
`ValueError(f"Json does not have type with index {t}!")`.  The fuel
argument bounds the depth of the embedding's recursion (`RecursionError`
when it runs out, modelling Python's recursion limit, though the
embedding also spends fuel per container element); every fact proved
below holds with fuel to spare. -/
def parse_json : Nat → List Nat → Heap → Except PyErr (PyVal × List Nat × Heap)
  | 0, _, _ => .error .recursionError
  | fuel + 1, s, h =>
    match parse_byte_e s with
    | .error e => .error e
    | .ok (t, s1) =>
      if t = 1 then .ok (.none, s1, h)
      else if t = 2 then
        match parse_with_struct_double s1 with
        | .error e => .error e
        | .ok (bits, s2) => .ok (.float bits, s2, h)
      else if t = 3 then
        match parse_with_struct_bool s1 with
        | .error e => .error e
        | .ok (b, s2) => .ok (.bool b, s2, h)
      else if t = 4 then
        let r := parse_signed_vlq s1
        .ok (.int r.1, r.2, h)
      else if t = 5 then
        match parse_utf8_string s1 with
        | .error e => .error e
        | .ok (str, s2) => .ok (.str str, s2, h)
      else if t = 6 then
        let r0 := parse_vlq s1
        match parse_json_list fuel r0.1 r0.2 h with
        | .error e => .error e
        | .ok (items, s2, h1) =>
          let al := heap_alloc h1 (.list items)
          .ok (.ref al.2, s2, al.1)
      else if t = 7 then
        let r0 := parse_vlq s1
        match parse_json_pairs fuel r0.1 r0.2 h with
        | .error e => .error e
        | .ok (pairs, s2, h1) =>
          let fields := pairs.foldl (fun acc kv => dict_insert acc kv.1 kv.2) []
          let al := heap_alloc h1 (.dict fields)
          .ok (.ref al.2, s2, al.1)
      else .error .valueError

/-- The list comprehension of `parse_set(stream, parse_json)`
(parser.py lines 231-233) used by `parse_json_array`. -/
def parse_json_list : Nat → Nat → List Nat → Heap →
    Except PyErr (List PyVal × List Nat × Heap)
  | _, 0, s, h => .ok ([], s, h)
  | 0, _ + 1, _, _ => .error .recursionError
  | fuel + 1, n + 1, s, h =>
    match parse_json fuel s h with
    | .error e => .error e
    | .ok (v, s1, h1) =>
      match parse_json_list fuel n s1 h1 with
      | .error e => .error e
      | .ok (vs, s2, h2) => .ok (v :: vs, s2, h2)

/-- The generator of `parse_hashmap(stream, parse_utf8_string, parse_json)`
(parser.py lines 241-244) used by `parse_json_object`. -/
def parse_json_pairs : Nat → Nat → List Nat → Heap →
    Except PyErr (List (String × PyVal) × List Nat × Heap)
  | _, 0, s, h => .ok ([], s, h)
  | 0, _ + 1, _, _ => .error .recursionError
  | fuel + 1, n + 1, s, h =>
    match parse_utf8_string s with
    | .error e => .error e
    | .ok (k, s1) =>
      match parse_json fuel s1 h with
      | .error e => .error e
      | .ok (v, s2, h1) =>
        match parse_json_pairs fuel n s2 h1 with
        | .error e => .error e
        | .ok (ps, s3, h2) => .ok ((k, v) :: ps, s3, h2)

end

theorem parse_json_unknown_tag (fuel : Nat) (h : Heap) (rest : List Nat) (t : Nat)
    (ht : t = 0 ∨ 8 ≤ t) :
    parse_json (fuel + 1) (t :: rest) h = .error .valueError := by
  have h1 : t ≠ 1 := by omega
  have h2 : t ≠ 2 := by omega
  have h3 : t ≠ 3 := by omega
  have h4 : t ≠ 4 := by omega
  have h5 : t ≠ 5 := by omega
  have h6 : t ≠ 6 := by omega
  have h7 : t ≠ 7 := by omega
  simp [parse_json, parse_byte_e, h1, h2, h3, h4, h5, h6, h7]

/-! ## Registered decoders lifted to the heap -/

/-- A registered decoder (`parse_funcs[0]` in `parse_map`): body bytes and
direction in, heap-allocated parsed value out. -/
def Decoder := List Nat → Nat → Heap → Except PyErr (Heap × PyVal)

/-- Model of `parse_chat_send` (parser.py lines 613-617) building its Python dict
on the heap. -/
def parse_chat_send_dec : Decoder := fun data _dir h =>
  match parse_utf8_string data with
  | .error e => .error e
  | .ok (text, s1) =>
    match parse_byte_e s1 with
    | .error e => .error e
    | .ok (mode, _s2) =>
      let al := heap_alloc h (.dict [("text", .str text), ("send_mode", .int mode)])
      .ok (al.1, .ref al.2)

/-- Model of `parse_give_item` (parser.py lines 648-654) building its Python dict
on the heap; the fuel is handed to `parse_json`. -/
def parse_give_item_dec (fuel : Nat) : Decoder := fun data _dir h =>
  match parse_utf8_string data with
  | .error e => .error e
  | .ok (name, s1) =>
    let r := parse_vlq s1
    match parse_json fuel r.2 h with
    | .error e => .error e
    | .ok (params, _s2, h1) =>
      let al := heap_alloc h1
        (.dict [("name", .str name), ("count", .int r.1), ("parameters", params)])
      .ok (al.1, .ref al.2)

/-! ## The parse cache (src/starrypy/parser.py `_cache`, `CachedPacket`,
`parse_packet`) -/

/-- Model of `CachedPacket` (parser.py lines 769-781). -/
structure CachedPacket where
  count : Int
  parsed_data : PyVal
deriving DecidableEq, Repr

/-- Model of `CachedPacket.get` (parser.py lines 775-777): bump the refcount and
hand out `self._parsed_data.copy()` — a *shallow* dict copy. -/
def cached_packet_get (h : Heap) (c : CachedPacket) : CachedPacket × Heap × PyVal :=
  match c.parsed_data with
  | .ref a =>
    let cp := dict_shallow_copy h a
    ({ c with count := c.count + 1 }, cp.1, .ref cp.2)
  | v => ({ c with count := c.count + 1 }, h, v)

/-- The process-wide `_cache`, keyed by `hash(packet)` =
`hash(packet.original_data)`, idealised as the `original_data` value
itself (i.e. a collision-free hash). -/
abbrev Cache := List (PyVal × CachedPacket)

def cache_lookup : Cache → PyVal → Option CachedPacket
  | [], _ => Option.none
  | (k, c) :: rest, key => if k = key then some c else cache_lookup rest key

def cache_set : Cache → PyVal → CachedPacket → Cache
  | [], key, c => [(key, c)]
  | (k, c') :: rest, key, c =>
    if k = key then (k, c) :: rest else (k, c') :: cache_set rest key c

/-- Model of `parse_packet` (parser.py lines 705-729) for a packet whose type has a
registered decoder `dec`: a cache hit hands out a shallow copy of the
cached parsed value (bumping the count in place); on a miss the decoder
runs and its result object is stored in the packet *and*, unchanged, in
the cache; only `IndexError` is caught (yielding the empty dict and no
cache entry) — any other decoder exception propagates to the caller. -/
def parse_packet_with (dec : Decoder) (h : Heap) (cache : Cache) (p : Packet) :
    Except PyErr (Heap × Cache × Packet) :=
  match cache_lookup cache p.original_data with
  | some c =>
    let r := cached_packet_get h c
    .ok (r.2.1, cache_set cache p.original_data r.1, { p with parsed_data := r.2.2 })
  | Option.none =>
    match dec p.data p.direction h with
    | .ok (h', v) =>
      .ok (h', cache_set cache p.original_data ⟨1, v⟩, { p with parsed_data := v })
    | .error .indexError =>
      let al := heap_alloc h (.dict [])
      .ok (al.1, cache, { p with parsed_data := .ref al.2 })
    | .error e => .error e

/-- The parse phase of `hook_event` (plugin_manager.py lines 106-115):
`packet.parse()` runs inside `try`; `NotImplementedError` and every other
exception are caught and logged, leaving packet, heap and cache exactly
as they were. -/
def hook_parse_step (dec : Decoder) (h : Heap) (cache : Cache) (p : Packet) :
    Heap × Cache × Packet :=
  match parse_packet_with dec h cache p with
  | .ok r => r
  | .error _ => (h, cache, p)

theorem heap_get_some_lt {h : Heap} {a : Nat} {o : PyObj}
    (hg : heap_get h a = some o) : a < h.length := by
  by_contra hge
  rw [heap_get, List.getElem?_eq_none (by omega)] at hg
  exact Option.noConfusion hg

/-- C3: for every message whose registered decoder raises any exception
during decoding — in particular a TaggedJson value whose tag byte is not
in 1..7, which fails with the protocol decode error (`ValueError`) — the
dispatch parse step leaves the message's parsed value as the empty
mapping, and the original raw bytes (and decompressed body) remain
available for forwarding.  In the source, `parse_packet` itself catches
only `IndexError` (assigning `{}`); every other decode exception
propagates to `hook_event`, which catches it, leaving the fresh packet's
parsed value the empty dict it was initialised with — either way the
parsed value is the empty mapping and the raw bytes are untouched. -/
theorem C3_decode_exception_empty_mapping :
    (∀ (dec : Decoder) (h : Heap) (cache : Cache) (p : Packet) (a : Nat) (e : PyErr),
      p.parsed_data = PyVal.ref a →
      heap_get h a = some (.dict []) →
      cache_lookup cache p.original_data = Option.none →
      dec p.data p.direction h = .error e →
      dict_fields (hook_parse_step dec h cache p).1
          (hook_parse_step dec h cache p).2.2.parsed_data = some [] ∧
      (hook_parse_step dec h cache p).2.2.original_data = p.original_data ∧
      (hook_parse_step dec h cache p).2.2.data = p.data) ∧
    (∀ (fuel : Nat) (h : Heap) (rest : List Nat) (t : Nat), t = 0 ∨ 8 ≤ t →
      parse_json (fuel + 1) (t :: rest) h = .error .valueError) := by
  constructor
  · intro dec h cache p a e hp ha hmiss hdec
    have hstep : hook_parse_step dec h cache p =
        match parse_packet_with dec h cache p with
        | .ok r => r
        | .error _ => (h, cache, p) := rfl
    cases e with
    | indexError =>
      have hpp : parse_packet_with dec h cache p =
          .ok (h ++ [.dict []], cache, { p with parsed_data := .ref h.length }) := by
        rw [parse_packet_with, hmiss, hdec]
        rfl
      rw [hstep, hpp]
      refine ⟨?_, rfl, rfl⟩
      simp [dict_fields, heap_get]
    | typeError =>
      have hpp : parse_packet_with dec h cache p = .error .typeError := by
        rw [parse_packet_with, hmiss, hdec]
      rw [hstep, hpp]
      exact ⟨by simp [dict_fields, hp, ha], rfl, rfl⟩
    | valueError =>
      have hpp : parse_packet_with dec h cache p = .error .valueError := by
        rw [parse_packet_with, hmiss, hdec]
      rw [hstep, hpp]
      exact ⟨by simp [dict_fields, hp, ha], rfl, rfl⟩
    | keyError =>
      have hpp : parse_packet_with dec h cache p = .error .keyError := by
        rw [parse_packet_with, hmiss, hdec]
      rw [hstep, hpp]
      exact ⟨by simp [dict_fields, hp, ha], rfl, rfl⟩
    | unicodeDecodeError =>
      have hpp : parse_packet_with dec h cache p = .error .unicodeDecodeError := by
        rw [parse_packet_with, hmiss, hdec]
      rw [hstep, hpp]
      exact ⟨by simp [dict_fields, hp, ha], rfl, rfl⟩
    | structError =>
      have hpp : parse_packet_with dec h cache p = .error .structError := by
        rw [parse_packet_with, hmiss, hdec]
      rw [hstep, hpp]
      exact ⟨by simp [dict_fields, hp, ha], rfl, rfl⟩
    | zlibError =>
      have hpp : parse_packet_with dec h cache p = .error .zlibError := by
        rw [parse_packet_with, hmiss, hdec]
      rw [hstep, hpp]
      exact ⟨by simp [dict_fields, hp, ha], rfl, rfl⟩
    | incompleteReadError =>
      have hpp : parse_packet_with dec h cache p = .error .incompleteReadError := by
        rw [parse_packet_with, hmiss, hdec]
      rw [hstep, hpp]
      exact ⟨by simp [dict_fields, hp, ha], rfl, rfl⟩
    | notImplementedError =>
      have hpp : parse_packet_with dec h cache p = .error .notImplementedError := by
        rw [parse_packet_with, hmiss, hdec]
      rw [hstep, hpp]
      exact ⟨by simp [dict_fields, hp, ha], rfl, rfl⟩
    | recursionError =>
      have hpp : parse_packet_with dec h cache p = .error .recursionError := by
        rw [parse_packet_with, hmiss, hdec]
      rw [hstep, hpp]
      exact ⟨by simp [dict_fields, hp, ha], rfl, rfl⟩
  · exact parse_json_unknown_tag

/-- Heap and packet for the C3 witness: a fresh GIVE_ITEM packet (type 31)
whose body `00 01 09` carries the TaggedJson tag byte 9. -/
def c3_heap : Heap := [.dict [], .dict []]

def c3_packet : Packet :=
  { type := 31, size := PyVal.none, compressed := false, data := [0, 1, 9],
    original_data := .bytes [31, 6, 0, 1, 9], direction := 0,
    parsed_data := .ref 0, edited_data := .ref 1 }

theorem c3_give_item_errors :
    parse_give_item_dec 1 c3_packet.data c3_packet.direction c3_heap
      = .error .valueError := rfl

/-- Witness for C3: the real `parse_give_item` decoder fed the body
`00 01 09` (empty name, count 1, then JSON tag byte 9) raises the decode
`ValueError`; the dispatch parse step leaves the parsed value `{}` and
the original bytes intact. -/
theorem C3_decode_exception_empty_mapping_witness :
    (dict_fields (hook_parse_step (parse_give_item_dec 1) c3_heap [] c3_packet).1
        (hook_parse_step (parse_give_item_dec 1) c3_heap [] c3_packet).2.2.parsed_data
      = some [] ∧
     (hook_parse_step (parse_give_item_dec 1) c3_heap [] c3_packet).2.2.original_data
      = c3_packet.original_data ∧
     (hook_parse_step (parse_give_item_dec 1) c3_heap [] c3_packet).2.2.data
      = c3_packet.data) ∧
    parse_json 1 [9] c3_heap = .error .valueError :=
  ⟨C3_decode_exception_empty_mapping.1 (parse_give_item_dec 1) c3_heap [] c3_packet 0
      .valueError rfl rfl rfl c3_give_item_errors,
   C3_decode_exception_empty_mapping.2 0 c3_heap [] 9 (by omega)⟩

/-! ## C4: the cache-copy scenario -/

/-- Scenario: a CHAT_SENT frame (type 18, signed-size VLQ `08`, body
`02 68 69 00` — text "hi", send mode 0). -/
def c4_heap : Heap := [.dict [], .dict []]

def c4_packet : Packet :=
  { type := 18, size := .bytes [8], compressed := false, data := [2, 104, 105, 0],
    original_data := .bytes [18, 8, 2, 104, 105, 0], direction := 1,
    parsed_data := .ref 0, edited_data := .ref 1 }

/-- First parse: a cache miss. -/
def c4_r1 : Heap × Cache × Packet :=
  hook_parse_step parse_chat_send_dec c4_heap [] c4_packet

/-- Second parse of the identical raw frame: a cache hit. -/
def c4_r2 : Heap × Cache × Packet :=
  hook_parse_step parse_chat_send_dec c4_r1.1 c4_r1.2.1 c4_packet

/-- In-place mutation of the *first* parse's value: `p1.parsed_data`
is the dict at address 2, and we run `p1.parsed_data["text"] = "evil"`. -/
def c4_h3 : Heap := dict_set c4_r2.1 2 "text" (.str "evil")

/-- Third parse of the same raw frame, after the mutation. -/
def c4_r3 : Heap × Cache × Packet :=
  hook_parse_step parse_chat_send_dec c4_h3 c4_r2.2.1 c4_packet

/-- C4 (counterexample): two parses of the identical raw frame do compare
equal (the hit's shallow copy at address 3 has the same fields as the
cached dict at address 2) — but they are not independent: the first
parse's value *is* the cached object, so mutating it ("text" := "evil")
changes the value a later parse of the same bytes returns, which now
reads "evil" where the claim requires it to still read "hi". -/
theorem C4_cache_mutation_counterexample :
    c4_r1.2.2.parsed_data = PyVal.ref 2 ∧
    c4_r2.2.2.parsed_data = PyVal.ref 3 ∧
    dict_fields c4_r2.1 (PyVal.ref 2) = dict_fields c4_r2.1 (PyVal.ref 3) ∧
    dict_lookup ((dict_fields c4_r2.1 c4_r1.2.2.parsed_data).getD []) "text"
      = some (.str "hi") ∧
    dict_lookup ((dict_fields c4_r3.1 c4_r3.2.2.parsed_data).getD []) "text"
      = some (.str "evil") ∧
    PyVal.str "evil" ≠ PyVal.str "hi" := by
  refine ⟨rfl, rfl, rfl, rfl, rfl, by decide⟩

/-- C4 (amended): on a cache miss the decoder's freshly built value is
stored, as the *same object*, in both the returned packet and the cache
entry (so mutating the miss result changes what later parses return);
on a cache hit the packet receives a fresh shallow copy — a new dict at a
new address with the *identical* field list (hence comparing equal, and
top-level key updates on the copy do not touch the cached dict, while
nested references remain shared), and the cached entry's count is bumped
in place. -/
theorem C4_cache_copy_semantics :
    (∀ (dec : Decoder) (h : Heap) (cache : Cache) (p : Packet) (h' : Heap) (v : PyVal),
      cache_lookup cache p.original_data = Option.none →
      dec p.data p.direction h = .ok (h', v) →
      parse_packet_with dec h cache p =
        .ok (h', cache_set cache p.original_data ⟨1, v⟩,
          { p with parsed_data := v })) ∧
    (∀ (dec : Decoder) (h : Heap) (cache : Cache) (p : Packet) (c : CachedPacket)
        (a : Nat) (fs : List (String × PyVal)),
      cache_lookup cache p.original_data = some c →
      c.parsed_data = PyVal.ref a →
      heap_get h a = some (.dict fs) →
      parse_packet_with dec h cache p =
        .ok (h ++ [.dict fs],
          cache_set cache p.original_data ⟨c.count + 1, c.parsed_data⟩,
          { p with parsed_data := PyVal.ref h.length }) ∧
      a ≠ h.length) := by
  constructor
  · intro dec h cache p h' v hmiss hdec
    rw [parse_packet_with, hmiss, hdec]
  · intro dec h cache p c a fs hhit hc hg
    constructor
    · rw [parse_packet_with, hhit]
      simp [cached_packet_get, hc, dict_shallow_copy, hg, heap_alloc]
    · have := heap_get_some_lt hg
      omega

/-- Witness for C4 (amended): both conjuncts applied to the concrete
CHAT_SENT scenario — the miss stores `ref 2` in packet and cache alike,
and the following hit hands out the fresh shallow copy `ref 4` while the
cached dict sits at address 2. -/
theorem C4_cache_copy_semantics_witness :
    parse_packet_with parse_chat_send_dec c4_heap [] c4_packet =
      .ok (c4_heap ++ [.dict [("text", .str "hi"), ("send_mode", .int 0)]],
        cache_set [] c4_packet.original_data ⟨1, PyVal.ref 2⟩,
        { c4_packet with parsed_data := PyVal.ref 2 }) ∧
    (parse_packet_with parse_chat_send_dec c4_r1.1 c4_r1.2.1 c4_packet =
      .ok (c4_r1.1 ++ [.dict [("text", .str "hi"), ("send_mode", .int 0)]],
        cache_set c4_r1.2.1 c4_packet.original_data ⟨2, PyVal.ref 2⟩,
        { c4_packet with parsed_data := PyVal.ref c4_r1.1.length }) ∧
      2 ≠ c4_r1.1.length) :=
  ⟨C4_cache_copy_semantics.1 parse_chat_send_dec c4_heap [] c4_packet _ _ rfl rfl,
   C4_cache_copy_semantics.2 parse_chat_send_dec c4_r1.1 c4_r1.2.1 c4_packet
     ⟨1, PyVal.ref 2⟩ 2 [("text", .str "hi"), ("send_mode", .int 0)] rfl rfl rfl⟩

end StarryPy
